import Mathlib

/-!
Verification of the job retrieval and change-detection model of `webchanges`
(`webchanges/jobs.py`), via a shallow embedding of the Python source in Lean.

Conventions of the embedding:
* Python scalar values appearing in job declarations are modelled by `DVal`
  (`None`, `str`, `int`, `bool`), with Python truthiness as `DVal.truthy`.
* A Python `dict` (a job declaration) is modelled as an association list with
  keyed lookup (`dget`), keyed update (`dset`) and keyed removal (`dpop`),
  matching `dict.get` / `dict.__setitem__` / `dict.pop` for lists whose keys
  are distinct (as they always are for a real `dict`).
* Functions that Python evaluates stepwise (e.g. `ignore_error`'s return
  expression, which can produce either a `bool` or a `str`) are embedded with
  an explicit result type `PyRet` mirroring the dynamic type of the result.
* The subclass registry built by the `TrackSubClasses` metaclass lives in
  `webchanges/util.py`, which is not part of the sources under verification;
  it is modelled from the spec (see `registry`).
-/

set_option maxRecDepth 100000

namespace Webchanges

/-- Value universe for job-declaration fields, mirroring the Python scalar
types that can occur as values of a job directive. -/
inductive DVal where
  | vnone : DVal
  | vstr (s : String) : DVal
  | vint (n : Int) : DVal
  | vbool (b : Bool) : DVal
deriving DecidableEq, Repr

/-- Python truthiness for `DVal`: `None`, `''`, `0` and `False` are falsy. -/
def DVal.truthy : DVal → Bool
  | .vnone => false
  | .vstr s => !(s == "")
  | .vint n => !(n == 0)
  | .vbool b => b

/-- A job declaration: an ordered mapping of directive names to values,
as loaded from configuration (Python `dict`). -/
abbrev Decl := List (String × DVal)

/-- `data.get(k)` with default `None`: the value of the first binding of `k`,
or `DVal.vnone` when `k` is absent. -/
def dget (d : Decl) (k : String) : DVal :=
  ((d.find? (fun kv => kv.fst == k)).map Prod.snd).getD .vnone

/-- `k in data`. -/
def hasKey (d : Decl) (k : String) : Bool :=
  d.any (fun kv => kv.fst == k)

/-- `data.pop(k, None)`: remove the binding of `k` (if any). -/
def dpop (d : Decl) (k : String) : Decl :=
  d.filter (fun kv => !(kv.fst == k))

/-- `data[k] = v`: replace the binding of `k` in place, or append it. -/
def dset (d : Decl) (k : String) (v : DVal) : Decl :=
  if hasKey d k then d.map (fun kv => if kv.fst == k then (k, v) else kv)
  else d ++ [(k, v)]

/-- The job kinds registered in `jobs.py` (the `__kind__` strings of the
concrete `JobBase` subclasses, excluding the abstract `Job`). -/
inductive Kind where
  | url : Kind
  | browser : Kind
  | shell : Kind
deriving DecidableEq, Repr

/-- A registered job variant: its kind together with its effective
`__required__` and `__optional__` directive tuples. -/
structure Variant where
  kind : Kind
  required : List String
  optional : List String
deriving DecidableEq, Repr

/-- `Job.__optional__` (`jobs.py` lines 302-320): the tuning directives shared
by every concrete variant. -/
def jobCommonOptional : List String :=
  ["index_number", "name", "note", "additions_only", "compared_versions",
   "contextlines", "deletions_only", "diff_filter", "diff_tool", "filter",
   "markdown_padded_tables", "max_tries", "is_markdown",
   "ignore_connection_errors", "ignore_http_error_codes",
   "ignore_timeout_errors", "ignore_too_many_redirects"]

/-- `UrlJob`: `__required__ = ('url',)` and its own `__optional__`
(`jobs.py` lines 343-357), merged with the inherited `Job` optionals. -/
def urlVariant : Variant :=
  { kind := .url
    required := ["url"]
    optional :=
      ["cookies", "data", "encoding", "headers", "http_proxy", "https_proxy",
       "ignore_cached", "method", "no_redirects", "ssl_no_verify", "timeout",
       "user_visible_url"] ++ jobCommonOptional }

/-- `BrowserJob`: `__required__ = ('url', 'use_browser')` and its own
`__optional__` (`jobs.py` lines 540-557), merged with the `Job` optionals. -/
def browserVariant : Variant :=
  { kind := .browser
    required := ["url", "use_browser"]
    optional :=
      ["block_elements", "chromium_revision", "cookies", "headers",
       "http_proxy", "https_proxy", "ignore_https_errors", "navigate",
       "switches", "timeout", "user_visible_url", "user_data_dir", "wait_for",
       "wait_for_navigation", "wait_until"] ++ jobCommonOptional }

/-- `ShellJob`: `__required__ = ('command',)`, no own optionals
(`jobs.py` lines 913-914), merged with the `Job` optionals. -/
def shellVariant : Variant :=
  { kind := .shell
    required := ["command"]
    optional := jobCommonOptional }

/-- Modelled from the spec: the variant registry.  The registration machinery
(`TrackSubClasses` in `webchanges/util.py`) is not among the sources; per the
spec it is "an explicit, statically enumerated registry — a sequence of
(kind-tag, required-fields, optional-fields, constructor) entries", holding
the concrete variants in registration (class-definition) order
url, browser, shell, each recognizing its own declared fields plus the common
`Job` tuning fields.  This list models `list(cls.__subclasses__.values())[1:]`
as used by `JobBase.unserialize` (the `[1:]` drops the abstract `Job`). -/
def registry : List Variant := [urlVariant, browserVariant, shellVariant]

/-- A constructed job: the selected variant's kind plus the directive values
the instance was built from (`cls(**data)` sets these as attributes). -/
structure Job where
  kind : Kind
  fields : Decl
deriving DecidableEq, Repr

/-- The classified validation failures raised by `JobBase.unserialize`,
`JobBase.from_dict` and `JobBase.__init__`. -/
inductive JobErr where
  | noValueMatch : JobErr
  | noTypeMatch : JobErr
  | unrecognizedDirective (k : String) : JobErr
  | missingDirective (k : String) : JobErr
deriving DecidableEq, Repr

/-- `jobs.py` lines 182-189: backwards-compatibility rewrite of the deprecated
`navigate` directive into `url` plus `use_browser: true`. -/
def navigateStep (d : Decl) : Decl :=
  if (dget d "navigate").truthy && !(dget d "use_browser").truthy then
    let urlVal := if hasKey d "url" then dget d "url" else dget d "navigate"
    dset (dset d "url" urlVal) "use_browser" (.vbool true)
  else d

/-- `jobs.py` lines 191-197: the deprecated `kind` directive is dropped. -/
def dropKindStep (d : Decl) : Decl :=
  if hasKey d "kind" then dpop d "kind" else d

/-- The two deprecation rewrites `unserialize` applies before auto-detecting
the job subclass. -/
def rewriteDecl (d : Decl) : Decl :=
  dropKindStep (navigateStep d)

/-- `jobs.py` lines 200-204: the subclasses whose required directives are all
present with truthy values in the declaration. -/
def candidatesOf (d : Decl) : List Variant :=
  registry.filter (fun v => v.required.all (fun k => (dget d k).truthy))

/-- `jobs.py` line 211: `[data.get(required) is not None for required in
match.__required__].count(True)`. -/
def countNotNone (d : Decl) (v : Variant) : Nat :=
  (v.required.filter (fun k => !(dget d k == DVal.vnone))).length

/-- Stable insertion into a list sorted by strictly descending count,
implementing the placement Python's stable `sorted(..., reverse=True)` gives
an element relative to the already-sorted tail. -/
def insertDesc (x : Variant × Nat) : List (Variant × Nat) → List (Variant × Nat)
  | [] => [x]
  | y :: ys => if y.snd > x.snd then y :: insertDesc x ys else x :: y :: ys

/-- Stable sort by descending count, modelling
`sorted(number_matched.items(), key=lambda x: x[1], reverse=True)`. -/
def sortDesc (l : List (Variant × Nat)) : List (Variant × Nat) :=
  l.foldr insertDesc []

/-- The count the spec's selection rule uses: the number of the variant's
required directives that are present with truthy values in the
declaration. -/
def countTruthyReq (d : Decl) (v : Variant) : Nat :=
  (v.required.filter (fun k => (dget d k).truthy)).length

/-- The spec's selection among several candidates: the candidate whose count
is highest, with ties broken in favour of the earliest (first-registered)
candidate.  `specBestCore f c cs` selects among `c :: cs`, preferring `c`
unless a later candidate has a strictly higher count. -/
def specBestCore (f : Variant → Nat) (c : Variant) : List Variant → Variant
  | [] => c
  | c2 :: cs =>
      let m := specBestCore f c2 cs
      if f m > f c then m else c

/-- The first pair attaining the maximal count of `x :: l` (ties to the
earlier pair): the head of the stable descending sort. -/
def firstMaxP (x : Variant × Nat) : List (Variant × Nat) → Variant × Nat
  | [] => x
  | y :: ys =>
      let m := firstMaxP y ys
      if m.snd > x.snd then m else x

/-- `jobs.py` lines 199-221: the subclass auto-detection step of
`JobBase.unserialize`, operating on the already-rewritten declaration.
The three match arms are: exactly one candidate, several candidates (pick the
head of the stable descending sort of the `is not None` counts, i.e.
`sorted(...)[0][0]`), and no candidate (a classified validation error that
distinguishes single-directive declarations). -/
def selectCore (d : Decl) : Except JobErr Variant :=
  match candidatesOf d with
  | [] => .error (if d.length == 1 then .noValueMatch else .noTypeMatch)
  | [v] => .ok v
  | v₁ :: v₂ :: rest =>
      .ok (((sortDesc (((v₁ :: v₂ :: rest)).map (fun m => (m, countNotNone d m)))).headD
        (v₁, 0)).fst)

/-- The subclass selected by `JobBase.unserialize` for a raw declaration:
deprecation rewrites followed by auto-detection. -/
def unserializeSelect (d : Decl) : Except JobErr Variant :=
  selectCore (rewriteDecl d)

/-- `jobs.py` lines 226-229 (inner loop): pop the other variant's required
keys that are not required by the selected variant. -/
def stripKeysFold (vreq : List String) (dd : Decl) (ks : List String) : Decl :=
  ks.foldl (fun dd2 k => if vreq.contains k then dd2 else dpop dd2 k) dd

/-- `jobs.py` lines 223-229: remove the other subclasses' leftover ("falsy")
required directives from the declaration before construction. -/
def stripOther (d : Decl) (v : Variant) : Decl :=
  (registry.filter (fun w => !(w.kind == v.kind))).foldl
    (fun dd other => stripKeysFold v.required dd other.required) d

/-- `k` is a recognized directive for the variant: required or optional. -/
def recognizedKey (v : Variant) (k : String) : Bool :=
  v.required.contains k || v.optional.contains k

/-- `jobs.py` lines 241-246 (`JobBase.from_dict`) followed by the required-key
check of `JobBase.__init__` (lines 140-143): reject the first unrecognized
directive, then reject a missing required directive, else build the job. -/
def from_dict (v : Variant) (d : Decl) : Except JobErr Job :=
  match d.find? (fun kv => !(recognizedKey v kv.fst)) with
  | some kv => .error (.unrecognizedDirective kv.fst)
  | none =>
      match v.required.find? (fun k => !(hasKey d k)) with
      | some k => .error (.missingDirective k)
      | none => .ok ⟨v.kind, d⟩

/-- `JobBase.unserialize` (`jobs.py` lines 180-231): rewrite deprecated
directives, auto-detect the subclass, strip other variants' leftover required
directives, and construct via `from_dict`. -/
def unserialize (d : Decl) : Except JobErr Job :=
  match unserializeSelect d with
  | .error e => .error e
  | .ok v => from_dict v (stripOther (rewriteDecl d) v)

/-! ### `ignore_http_error_codes` matching (`UrlJob.ignore_error`,
`BrowserJob.ignore_error`) -/

/-- A Python scalar as it occurs in an `ignore_http_error_codes` list entry or
in a membership test (`in`). -/
inductive PyVal where
  | int (n : Int) : PyVal
  | str (s : String) : PyVal
deriving DecidableEq, Repr

/-- Python `==` across `int` and `str`: values of different types compare
unequal. -/
def pyValEq : PyVal → PyVal → Bool
  | .int a, .int b => a == b
  | .str a, .str b => a == b
  | _, _ => false

/-- Python `x in l` (list membership by `==`). -/
def pyIn (x : PyVal) (l : List PyVal) : Bool :=
  l.any (pyValEq x)

/-- Python `str(v)`. -/
def pyStr : PyVal → String
  | .int n => toString n
  | .str s => s

/-- Python `str(b)` for a `bool`, as interpolated by an f-string. -/
def pyBoolStr (b : Bool) : String :=
  if b then "True" else "False"

/-- The characters Python `str.strip()` removes. -/
def isPySpace (c : Char) : Bool :=
  c == ' ' || c == '\t' || c == '\n' || c == '\r' || c == '\x0b' || c == '\x0c'

/-- Python `str.strip()` over a character list. -/
def pyStripL (l : List Char) : List Char :=
  (((l.dropWhile isPySpace).reverse).dropWhile isPySpace).reverse

/-- ASCII lowercasing of one character (`str.lower()` restricted to the ASCII
range, which covers status codes and `Nxx` wildcards). -/
def asciiLowerChar (c : Char) : Char :=
  if 65 ≤ c.toNat && c.toNat ≤ 90 then Char.ofNat (c.toNat + 32) else c

/-- Python `s.strip().lower()`. -/
def pyStripLower (s : String) : String :=
  String.mk ((pyStripL s.toList).map asciiLowerChar)

/-- Python `s.split(',')` over a character list: maximal runs between commas,
including empty runs (`''.split(',') == ['']`). -/
def splitCommaL : List Char → List (List Char)
  | [] => [[]]
  | c :: rest =>
      if c == ',' then [] :: splitCommaL rest
      else
        match splitCommaL rest with
        | g :: gs => (c :: g) :: gs
        | [] => [[c]]

/-- Python `s.split(',')`. -/
def pySplitComma (s : String) : List String :=
  (splitCommaL s.toList).map String.mk

/-- The value of the `ignore_http_error_codes` job directive: `None`/unset,
an integer, a comma-separated string, a list of codes/wildcards, or a boolean
(YAML can produce any of these). -/
inductive IgnoreCodes where
  | none : IgnoreCodes
  | int (n : Int) : IgnoreCodes
  | str (s : String) : IgnoreCodes
  | list (l : List PyVal) : IgnoreCodes
  | bool (b : Bool) : IgnoreCodes
deriving DecidableEq, Repr

/-- Python truthiness of the directive value (`and self.ignore_http_error_codes`
in the guard of the `elif` branch). -/
def IgnoreCodes.truthy : IgnoreCodes → Bool
  | .none => false
  | .int n => !(n == 0)
  | .str s => !(s == "")
  | .list l => !l.isEmpty
  | .bool b => b

/-- The dynamic result of `ignore_error`: Python returns either a `bool` or a
`str` (the declared return type is `Union[bool, str]`). -/
inductive PyRet where
  | bool (b : Bool) : PyRet
  | str (s : String) : PyRet
deriving DecidableEq, Repr

/-- Truthiness of an `ignore_error` result, as its caller in the runner
evaluates it. -/
def PyRet.truthy : PyRet → Bool
  | .bool b => b
  | .str s => !(s == "")

/-- `jobs.py` line 531 (and line 904): the final return expression
`str(status_code) in ignored_codes or f'{(status_code // 100) in
ignored_codes}xx'`.  The left operand of `or` is a `bool`; when it is falsy
Python returns the right operand, the f-string — which interpolates the
*boolean* `(status_code // 100) in ignored_codes` (an `int` never equals a
`str`, so that membership test is always `False`) and appends `'xx'`,
yielding the non-empty (truthy) string `'Falsexx'`. -/
def httpCodesReturn (ignored_codes : List String) (status_code : Nat) : PyRet :=
  if pyIn (.str (toString status_code)) (ignored_codes.map PyVal.str) then
    .bool true
  else
    .str (pyBoolStr (pyIn (.int (status_code / 100)) (ignored_codes.map PyVal.str)) ++ "xx")

/-- `UrlJob.ignore_error`, HTTP-error branch (`jobs.py` lines 522-532): the
classification applied when the exception is a `requests.exceptions.HTTPError`
carrying `status_code`, given the job's `ignore_http_error_codes` value. -/
def urlJobIgnoreErrorHttp (cfg : IgnoreCodes) (status_code : Nat) : PyRet :=
  if cfg.truthy then
    match cfg with
    | .int n =>
        if n == (status_code : Int) then .bool true
        else httpCodesReturn [] status_code
    | .bool b =>
        -- `isinstance(True, int)` holds in Python, so a boolean directive is
        -- compared to the status code as the integer 0/1
        if (if b then (1 : Int) else 0) == (status_code : Int) then .bool true
        else httpCodesReturn [] status_code
    | .str s =>
        httpCodesReturn ((pySplitComma s).map pyStripLower) status_code
    | .list l =>
        httpCodesReturn (l.map (fun e => pyStripLower (pyStr e))) status_code
    | .none => httpCodesReturn [] status_code
  else .bool false

/-- `BrowserJob.ignore_error`, HTTP-error branch (`jobs.py` lines 895-905):
the classification applied when the exception is a `BrowserResponseError`
carrying `status_code`, given the job's `ignore_http_error_codes` value.
Transcribed from its own source lines, independently of the `UrlJob`
variant. -/
def browserJobIgnoreErrorHttp (cfg : IgnoreCodes) (status_code : Nat) : PyRet :=
  if cfg.truthy then
    match cfg with
    | .int n =>
        if n == (status_code : Int) then .bool true
        else httpCodesReturn [] status_code
    | .bool b =>
        if (if b then (1 : Int) else 0) == (status_code : Int) then .bool true
        else httpCodesReturn [] status_code
    | .str s =>
        httpCodesReturn ((pySplitComma s).map pyStripLower) status_code
    | .list l =>
        httpCodesReturn (l.map (fun e => pyStripLower (pyStr e))) status_code
    | .none => httpCodesReturn [] status_code
  else .bool false

/-- The status-code match predicate as the spec words it: an integer matches
exactly; a comma-separated string or a list matches iff the exact string form
of the status code, or its first-digit `Nxx` class form, appears among the
(stripped, lowercased) entries; anything else matches nothing. -/
def specHttpCodeMatch (cfg : IgnoreCodes) (status_code : Nat) : Bool :=
  match cfg with
  | .int n => n == (status_code : Int)
  | .str s =>
      let entries := (pySplitComma s).map pyStripLower
      entries.contains (toString status_code) ||
        entries.contains (toString (status_code / 100) ++ "xx")
  | .list l =>
      let entries := l.map (fun e => pyStripLower (pyStr e))
      entries.contains (toString status_code) ||
        entries.contains (toString (status_code / 100) ++ "xx")
  | _ => false

/-! ### Job identity: `get_location` and `get_guid` -/

/-- UTF-8 encoding of one character (Python `str.encode()`), as a list of
byte values. -/
def encodeChar (c : Char) : List Nat :=
  let n := c.toNat
  if n < 128 then [n]
  else if n < 2048 then [192 + n / 64, 128 + n % 64]
  else if n < 65536 then [224 + n / 4096, 128 + (n / 64) % 64, 128 + n % 64]
  else [240 + n / 262144, 128 + (n / 4096) % 64, 128 + (n / 64) % 64, 128 + n % 64]

/-- UTF-8 encoding of a string. -/
def utf8Bytes (s : String) : List Nat :=
  s.toList.foldr (fun c acc => encodeChar c ++ acc) []

/-- `2 ^ 32`, the modulus of 32-bit words. -/
def M32 : Nat := 4294967296

/-- Left rotation of a 32-bit word. -/
def rotl (n x : Nat) : Nat :=
  ((x <<< n) ||| (x >>> (32 - n))) % M32

/-- SHA-1 padding: append `0x80`, zero bytes to 56 mod 64, and the 64-bit
big-endian bit length. -/
def sha1pad (msg : List Nat) : List Nat :=
  let L := msg.length
  msg ++ [128] ++ List.replicate ((119 - L % 64) % 64) 0 ++
    (List.range 8).map (fun i => (8 * L) >>> (56 - 8 * i) % 18446744073709551616 % 256)

/-- The `i`-th big-endian 32-bit word of a 64-byte chunk. -/
def wordOfBytes (chunk : List Nat) (i : Nat) : Nat :=
  16777216 * chunk.getD (4 * i) 0 + 65536 * chunk.getD (4 * i + 1) 0 +
    256 * chunk.getD (4 * i + 2) 0 + chunk.getD (4 * i + 3) 0

/-- One SHA-1 compression step over a 64-byte chunk. -/
def sha1chunk (h : Nat × Nat × Nat × Nat × Nat) (chunk : List Nat) :
    Nat × Nat × Nat × Nat × Nat :=
  let w := (List.range 80).foldl
    (fun ws i =>
      if i < 16 then ws ++ [wordOfBytes chunk i]
      else ws ++ [rotl 1 ((ws.getD (i - 3) 0) ^^^ (ws.getD (i - 8) 0) ^^^
        (ws.getD (i - 14) 0) ^^^ (ws.getD (i - 16) 0))])
    []
  let (h0, h1, h2, h3, h4) := h
  let (a, b, c, d, e) := (List.range 80).foldl
    (fun st i =>
      let (a, b, c, d, e) := st
      let f :=
        if i < 20 then (b &&& c) ||| ((4294967295 - b) &&& d)
        else if i < 40 then b ^^^ c ^^^ d
        else if i < 60 then (b &&& c) ||| (b &&& d) ||| (c &&& d)
        else b ^^^ c ^^^ d
      let k :=
        if i < 20 then 1518500249
        else if i < 40 then 1859775393
        else if i < 60 then 2400959708
        else 3395469782
      let temp := (rotl 5 a + f + e + k + w.getD i 0) % M32
      (temp, a, rotl 30 b, c, d))
    (h0, h1, h2, h3, h4)
  ((h0 + a) % M32, (h1 + b) % M32, (h2 + c) % M32, (h3 + d) % M32, (h4 + e) % M32)

/-- A lowercase hexadecimal digit. -/
def hexDigit (n : Nat) : Char :=
  if n < 10 then Char.ofNat (48 + n) else Char.ofNat (87 + n)

/-- The 8-digit lowercase hex rendering of a 32-bit word. -/
def hex8 (x : Nat) : String :=
  String.mk ((List.range 8).map (fun i => hexDigit ((x >>> (28 - 4 * i)) % 16)))

/-- `hashlib.sha1(s.encode()).hexdigest()`: the SHA-1 digest of the UTF-8
encoding of `s`, in lowercase hex. -/
def sha1hex (s : String) : String :=
  let msg := sha1pad (utf8Bytes s)
  let (h0, h1, h2, h3, h4) := (List.range (msg.length / 64)).foldl
    (fun h i => sha1chunk h ((msg.drop (64 * i)).take 64))
    (1732584193, 4023233417, 2562383102, 271733878, 3285377520)
  hex8 h0 ++ hex8 h1 ++ hex8 h2 ++ hex8 h3 ++ hex8 h4

/-- `UrlJob.get_location` / `BrowserJob.get_location`
(`jobs.py` lines 359-360 and 562-563): `self.user_visible_url or self.url`;
`ShellJob.get_location` (lines 916-917): `self.command`.  Attribute reads fall
back to the class-level defaults (`''` for `url`, `user_visible_url` and
`command`) when the directive was not set on the instance. -/
def get_location (j : Job) : DVal :=
  match j.kind with
  | .url | .browser =>
      let uvu := if hasKey j.fields "user_visible_url"
        then dget j.fields "user_visible_url" else .vstr ""
      if uvu.truthy then uvu
      else if hasKey j.fields "url" then dget j.fields "url" else .vstr ""
  | .shell =>
      if hasKey j.fields "command" then dget j.fields "command" else .vstr ""

/-- The string a location value encodes to (locations are strings). -/
def locString : DVal → String
  | .vstr s => s
  | .vnone => ""
  | .vint n => toString n
  | .vbool b => pyBoolStr b

/-- `JobBase.get_guid` (`jobs.py` lines 277-279):
`hashlib.sha1(self.get_location().encode()).hexdigest()`. -/
def get_guid (j : Job) : String :=
  sha1hex (locString (get_location j))

/-! ### Conditional-fetch headers (`UrlJob.retrieve`, `jobs.py` 372-383) -/

/-- An HTTP header mapping, modelling `requests.structures.CaseInsensitiveDict`
restricted to the operations `retrieve` uses. -/
abbrev Headers := List (String × String)

/-- Case-insensitive header-name equality. -/
def ciKeyEq (a b : String) : Bool :=
  a.toList.map asciiLowerChar == b.toList.map asciiLowerChar

/-- Case-insensitive lookup (`headers.get(k)`). -/
def ciGet (h : Headers) (k : String) : Option String :=
  (h.find? (fun kv => ciKeyEq kv.fst k)).map Prod.snd

/-- `headers.pop(k, None)`: case-insensitive removal. -/
def ciPop (h : Headers) (k : String) : Headers :=
  h.filter (fun kv => !(ciKeyEq kv.fst k))

/-- `headers[k] = v`: a `CaseInsensitiveDict` store replaces any entry whose
name matches case-insensitively. -/
def ciSet (h : Headers) (k v : String) : Headers :=
  ciPop h k ++ [(k, v)]

/-- Two-digit zero-padded decimal. -/
def pad2 (n : Nat) : String :=
  if n < 10 then "0" ++ toString n else toString n

/-- Weekday abbreviations, Monday-first (`email.utils` day names). -/
def dayNames : List String := ["Mon", "Tue", "Wed", "Thu", "Fri", "Sat", "Sun"]

/-- Month abbreviations (`email.utils` month names). -/
def monthNames : List String :=
  ["Jan", "Feb", "Mar", "Apr", "May", "Jun", "Jul", "Aug", "Sep", "Oct", "Nov", "Dec"]

/-- Gregorian date (year, month, day) from a count of days since 1970-01-01
(civil-from-days algorithm, specialized to non-negative day counts). -/
def civilFromDays (days : Nat) : Nat × Nat × Nat :=
  let z := days + 719468
  let era := z / 146097
  let doe := z % 146097
  let yoe := (doe - doe / 1460 + doe / 36524 - doe / 146096) / 365
  let y := yoe + era * 400
  let doy := doe - (365 * yoe + yoe / 4 - yoe / 100)
  let mp := (5 * doy + 2) / 153
  let d := doy - (153 * mp + 2) / 5 + 1
  let m := if mp < 10 then mp + 3 else mp - 9
  (if m ≤ 2 then y + 1 else y, m, d)

/-- `email.utils.formatdate(t)` for a non-negative integer timestamp `t`
(seconds since the epoch): an RFC 2822 date such as
`Thu, 01 Jan 1970 00:00:00 -0000`. -/
def formatdate (t : Nat) : String :=
  let days := t / 86400
  let secs := t % 86400
  let (y, m, d) := civilFromDays days
  dayNames.getD ((3 + days) % 7) "" ++ ", " ++ pad2 d ++ " " ++
    monthNames.getD (m - 1) "" ++ " " ++ toString y ++ " " ++
    pad2 (secs / 3600) ++ ":" ++ pad2 (secs % 3600 / 60) ++ ":" ++
    pad2 (secs % 60) ++ " -0000"

/-- Modelled from the spec: the slice of the runner's per-job state
(`handler.JobState`, not among the sources) that `UrlJob.retrieve` consults —
the prior cache entry's conditional-fetch token (`old_etag`, empty when
absent), its capture timestamp (`old_timestamp`), and the consecutive-failure
counter (`tries`). -/
structure JobState where
  old_etag : String
  old_timestamp : Option Nat
  tries : Nat
deriving DecidableEq, Repr

/-- `UrlJob.retrieve`, `jobs.py` lines 372-383: build the conditional-fetch
headers from the prior cache entry, then, if the job ignores the cache or has
already failed this cycle, drop `If-None-Match` and override
`If-Modified-Since` (epoch), `Cache-Control` and `Expires` to force an
unconditional fetch.  `now` is the current time used by the argument-less
`email.utils.formatdate()` call. -/
def buildCondHeaders (h0 : Headers) (ignore_cached : Bool) (js : JobState)
    (now : Nat) : Headers :=
  let h1 := if !(js.old_etag == "") then ciSet h0 "If-None-Match" js.old_etag else h0
  let h2 := match js.old_timestamp with
    | some t => ciSet h1 "If-Modified-Since" (formatdate t)
    | none => h1
  if ignore_cached || decide (js.tries > 0) then
    let h3 := ciPop h2 "If-None-Match"
    let h4 := ciSet h3 "If-Modified-Since" (formatdate 0)
    let h5 := ciSet h4 "Cache-Control" "max-age=172800"
    ciSet h5 "Expires" (formatdate now)
  else h2

/-! ### Request timeout resolution (`UrlJob.retrieve`, `jobs.py` 442-449) -/

/-- `jobs.py` lines 442-449: `None` resolves to the 60-second default, an
explicit `0` disables the timeout (`requests` treats `timeout=None` as "wait
forever"), and any other value is passed through. -/
def resolveTimeout (timeout : Option ℚ) : Option ℚ :=
  match timeout with
  | Option.none => some 60
  | some t => if t = 0 then Option.none else some t

/-! ### Title extraction and name derivation
(`UrlJob.retrieve` lines 491-495, `BrowserJob.retrieve` lines 568-572) -/

/-- `"<title"`, the literal head of the pattern. -/
def openTag : List Char := ['<', 't', 'i', 't', 'l', 'e']

/-- `"</title>"`, the literal tail of the pattern. -/
def closeTag : List Char := ['<', '/', 't', 'i', 't', 'l', 'e', '>']

/-- The lazy group `(.+?)` followed by the literal `</title>`: consume one or
more non-newline characters, stopping at the first position where `</title>`
follows.  Returns the captured group. -/
def matchGroup (acc : List Char) : List Char → Option (List Char)
  | [] => none
  | c :: rest =>
      if c == '\n' then none
      else if List.isPrefixOf closeTag rest then some (acc ++ [c])
      else matchGroup (acc ++ [c]) rest

/-- The lazy gap `.*?>` followed by the group: try each `>` from left to
right (the gap cannot cross a newline), matching the group after it;
backtrack to the next `>` on failure. -/
def matchAfterOpen : List Char → Option (List Char)
  | [] => none
  | c :: rest =>
      if c == '>' then
        match matchGroup [] rest with
        | some g => some g
        | none => matchAfterOpen rest
      else if c == '\n' then none
      else matchAfterOpen rest

/-- `re.search(r'<title.*?>(.+?)</title>', text)`: the first (leftmost,
lazily shortest) match's group 1.  `re.findall` with the same pattern returns
the same string as its first element, so this also models `title[0]` in
`BrowserJob.retrieve`. -/
def searchTitle : List Char → Option (List Char)
  | [] => none
  | c :: rest =>
      if List.isPrefixOf openTag (c :: rest) then
        match matchAfterOpen ((c :: rest).drop 6) with
        | some g => some g
        | none => searchTitle rest
      else searchTitle rest

/-- String-level wrapper for the title pattern search. -/
def reTitleSearch (s : String) : Option String :=
  (searchTitle s.toList).map (fun g => String.mk g)

/-- Truthiness of the `name` attribute (`if not self.name`): unset (`None`)
or empty. -/
def nameTruthy : Option String → Bool
  | Option.none => false
  | some s => !(s == "")

/-- `UrlJob.retrieve`, `jobs.py` lines 491-495: if no name is set, derive it
from the `<title>` element, truncated to 60 characters (`title.group(1)[:60]`).
Returns the job's `name` after the retrieval. -/
def urlDeriveName (name : Option String) (text : String) : Option String :=
  if nameTruthy name then name
  else
    match reTitleSearch text with
    | some t => some (t.take 60)
    | Option.none => name

/-- `BrowserJob.retrieve`, `jobs.py` lines 568-572: if no name is set, derive
it from the `<title>` element (`title[0]`, no truncation).  Returns the job's
`name` after the retrieval. -/
def browserDeriveName (name : Option String) (text : String) : Option String :=
  if nameTruthy name then name
  else
    match reTitleSearch text with
    | some t => some t
    | Option.none => name

/-! ### The response-handling tail of `UrlJob.retrieve`
(`jobs.py` lines 467-497) -/

/-- The slice of a `requests.Response` that the tail of `UrlJob.retrieve`
consumes: the status code, the redirect history, the response headers and the
decoded body text. -/
structure HttpResponse where
  status : Nat
  history : List Nat
  headers : Headers
  text : String
deriving DecidableEq, Repr

/-- The exceptional outcomes of the response-handling tail. -/
inductive RetrieveErr where
  | httpError (code : Nat) : RetrieveErr
  | notModified (code : Nat) : RetrieveErr
deriving DecidableEq, Repr

/-- `jobs.py` lines 471-474: the ETag saved into the job state — the
response's `ETag` header when the response involved no redirects
(`response.history` empty), the empty string otherwise. -/
def responseEtag (r : HttpResponse) : String :=
  if r.history.isEmpty then (ciGet r.headers "ETag").getD "" else ""

/-- `UrlJob.retrieve`, `jobs.py` lines 467-497: `raise_for_status()` (HTTP
4xx/5xx), the `NotModifiedError` control-flow signal on 304, the ETag
computation, and the returned `(content, etag)` pair together with the job
name after derivation.  The body is modelled as its decoded text in both the
bytes and the text branch. -/
def urlRetrieveTail (name : Option String) (needsBytes : Bool)
    (r : HttpResponse) : Except RetrieveErr (String × String × Option String) :=
  if 400 ≤ r.status && r.status < 600 then .error (.httpError r.status)
  else if r.status == 304 then .error (.notModified r.status)
  else
    let etag := responseEtag r
    if needsBytes then .ok (r.text, etag, name)
    else .ok (r.text, etag, urlDeriveName name r.text)

/-! ## Theorems -/

/-- C1: the claim says `ignore_error` returns true exactly when the status
code is matched by the `ignore_http_error_codes` configuration
(`specHttpCodeMatch`).  The code disagrees: with the directive set to the
string `"500"` and an HTTP error with status 404 — which matches neither
`"500"` nor the class `"5xx"` — `ignore_error` returns the string `'Falsexx'`,
which is truthy, so the error is ignored.  The `Nxx` wildcard check at
`jobs.py` line 531 interpolates the membership test *inside* the f-string
(`f'{(status_code // 100) in ignored_codes}xx'`) instead of testing the
f-string's value for membership, so the expression always produces a truthy
string when reached. -/
theorem C1_ignore_http_error_codes_code_bug :
    urlJobIgnoreErrorHttp (.str "500") 404 = .str "Falsexx" ∧
    (urlJobIgnoreErrorHttp (.str "500") 404).truthy = true ∧
    specHttpCodeMatch (.str "500") 404 = false := by
  decide

/-- The 61-character title text used to refute the truncation claim for
browser jobs. -/
def longTitle : String := String.mk (List.replicate 61 'a')

/-- C2 (counterexample): for a browser-job retrieval of a document whose
`<title>` element holds 61 characters and a job with no configured name, the
code sets the name to the full 61-character title — not a truncation to at
most 60 characters (`BrowserJob.retrieve` has no `[:60]`). -/
theorem C2_browser_title_not_truncated :
    browserDeriveName Option.none ("<title>" ++ longTitle ++ "</title>") = some longTitle ∧
    60 < longTitle.length := by
  constructor
  · rfl
  · decide

/-- C2 (amended): for every retrieval with no explicitly configured job name
whose document yields a title under the pattern `<title.*?>(.+?)</title>`,
`UrlJob.retrieve` sets the name to the title truncated to 60 characters,
while `BrowserJob.retrieve` sets it to the full title text without
truncation. -/
theorem C2_title_name_derivation (name : Option String) (text t : String)
    (hn : nameTruthy name = false) (ht : reTitleSearch text = some t) :
    urlDeriveName name text = some (t.take 60) ∧
    browserDeriveName name text = some t := by
  unfold urlDeriveName browserDeriveName
  rw [hn, ht]
  simp

/-- Witness for `C2_title_name_derivation` at a concrete input. -/
theorem C2_title_name_derivation_witness :
    nameTruthy Option.none = false ∧
    reTitleSearch "<title>Hi</title>" = some "Hi" ∧
    urlDeriveName Option.none "<title>Hi</title>" = some "Hi" ∧
    browserDeriveName Option.none "<title>Hi</title>" = some "Hi" :=
  ⟨rfl, rfl,
    (C2_title_name_derivation Option.none "<title>Hi</title>" "Hi" rfl rfl).1,
    (C2_title_name_derivation Option.none "<title>Hi</title>" "Hi" rfl rfl).2⟩

/-- C3: for every value of `ignore_http_error_codes` and every status code,
the match predicate in `UrlJob.ignore_error` (on `requests` HTTP errors) and
the one in `BrowserJob.ignore_error` (on `BrowserResponseError`) give the
same answer: the two code paths implement one identical predicate. -/
theorem C3_ignore_error_predicates_identical (cfg : IgnoreCodes) (status_code : Nat) :
    urlJobIgnoreErrorHttp cfg status_code = browserJobIgnoreErrorHttp cfg status_code :=
  rfl

/-- C7: `get_guid` is a pure function of the job's location: any two jobs
whose `get_location` values are equal have equal GUIDs, regardless of any
other field (and, being a function, the same job always yields the same
GUID). -/
theorem C7_guid_pure_function_of_location (j₁ j₂ : Job)
    (h : get_location j₁ = get_location j₂) :
    get_guid j₁ = get_guid j₂ := by
  unfold get_guid
  rw [h]

/-- Witness for `C7_guid_pure_function_of_location`: two url jobs with the
same `url` but different `name` and `timeout` fields. -/
theorem C7_guid_pure_function_of_location_witness :
    get_location ⟨.url, [("url", DVal.vstr "https://example.com/")]⟩ =
      get_location ⟨.url, [("url", DVal.vstr "https://example.com/"),
        ("name", DVal.vstr "Example"), ("timeout", DVal.vint 10)]⟩ ∧
    get_guid ⟨.url, [("url", DVal.vstr "https://example.com/")]⟩ =
      get_guid ⟨.url, [("url", DVal.vstr "https://example.com/"),
        ("name", DVal.vstr "Example"), ("timeout", DVal.vint 10)]⟩ :=
  ⟨by decide,
    C7_guid_pure_function_of_location _ _ (by decide)⟩

/-- `find?` skips a filter that only discards elements the search predicate
rejects. -/
theorem find?_filter_of_imp {α : Type} (p q : α → Bool) (l : List α)
    (himp : ∀ x, p x = true → q x = true) :
    (l.filter q).find? p = l.find? p := by
  induction l with
  | nil => rfl
  | cons x t ih =>
      by_cases hq : q x = true
      · rw [List.filter_cons_of_pos hq]
        by_cases hp : p x = true
        · rw [List.find?_cons_of_pos _ hp, List.find?_cons_of_pos _ hp]
        · rw [List.find?_cons_of_neg _ hp, List.find?_cons_of_neg _ hp, ih]
      · have hp : ¬ p x = true := fun hp => hq (himp x hp)
        rw [List.filter_cons_of_neg hq, List.find?_cons_of_neg _ hp, ih]

/-- Case-insensitive equality is equality of the lowercased spellings. -/
theorem ciKeyEq_iff (a b : String) :
    ciKeyEq a b = true ↔ a.toList.map asciiLowerChar = b.toList.map asciiLowerChar := by
  simp [ciKeyEq]

/-- Two header names matching a common name case-insensitively match each
other. -/
theorem ciKeyEq_of_common (a k k' : String) (h1 : ciKeyEq a k = true)
    (h2 : ciKeyEq a k' = true) : ciKeyEq k k' = true := by
  rw [ciKeyEq_iff] at h1 h2 ⊢
  rw [← h1, h2]

/-- Looking up the name just stored finds the stored value. -/
theorem ciGet_ciSet_eq (h : Headers) (k v : String) :
    ciGet (ciSet h k v) k = some v := by
  unfold ciGet ciSet ciPop
  rw [List.find?_append]
  have hnone : (h.filter (fun kv => !(ciKeyEq kv.fst k))).find?
      (fun kv => ciKeyEq kv.fst k) = none := by
    apply List.find?_eq_none.mpr
    intro x hx hpx
    have := (List.mem_filter.mp hx).2
    rw [hpx] at this
    simp at this
  rw [hnone, Option.none_or, List.find?_cons_of_pos _ (by rw [ciKeyEq_iff])]
  rfl

/-- Storing under one name leaves lookups of non-matching names unchanged. -/
theorem ciGet_ciSet_ne (h : Headers) (k v k' : String)
    (hne : ciKeyEq k k' = false) : ciGet (ciSet h k v) k' = ciGet h k' := by
  unfold ciGet ciSet ciPop
  rw [List.find?_append]
  have hlast : List.find? (fun kv => ciKeyEq kv.fst k') [(k, v)] = none := by
    rw [List.find?_cons_of_neg]
    · rfl
    · intro hk
      rw [hne] at hk
      exact Bool.noConfusion hk
  rw [hlast, Option.or_none]
  rw [find?_filter_of_imp]
  intro x hx
  by_cases hxk : ciKeyEq x.fst k = true
  · have := ciKeyEq_of_common x.fst k k' hxk hx
    rw [hne] at this
    exact Bool.noConfusion this
  · simp [hxk]

/-- Removing a name removes it. -/
theorem ciGet_ciPop_eq (h : Headers) (k : String) :
    ciGet (ciPop h k) k = none := by
  unfold ciGet ciPop
  rw [List.find?_eq_none.mpr]
  · rfl
  · intro x hx hpx
    have := (List.mem_filter.mp hx).2
    rw [hpx] at this
    simp at this

/-- Removing one name leaves lookups of non-matching names unchanged. -/
theorem ciGet_ciPop_ne (h : Headers) (k k' : String)
    (hne : ciKeyEq k k' = false) : ciGet (ciPop h k) k' = ciGet h k' := by
  unfold ciGet ciPop
  rw [find?_filter_of_imp]
  intro x hx
  by_cases hxk : ciKeyEq x.fst k = true
  · have := ciKeyEq_of_common x.fst k k' hxk hx
    rw [hne] at this
    exact Bool.noConfusion this
  · simp [hxk]

/-- C8: when the job ignores the cache or has already failed this cycle
(`tries > 0`), the request headers built by `UrlJob.retrieve` carry no
`If-None-Match` and have `If-Modified-Since` overridden to the epoch date,
regardless of the cached etag and timestamp; otherwise a non-empty cached
etag is sent as `If-None-Match` and a cached timestamp as
`If-Modified-Since`. -/
theorem C8_conditional_fetch_headers (h0 : Headers) (ignore_cached : Bool)
    (js : JobState) (now : Nat) :
    ((ignore_cached = true ∨ 0 < js.tries) →
      ciGet (buildCondHeaders h0 ignore_cached js now) "If-None-Match" = none ∧
      ciGet (buildCondHeaders h0 ignore_cached js now) "If-Modified-Since" =
        some (formatdate 0)) ∧
    (ignore_cached = false → js.tries = 0 →
      (js.old_etag ≠ "" →
        ciGet (buildCondHeaders h0 ignore_cached js now) "If-None-Match" =
          some js.old_etag) ∧
      (∀ t, js.old_timestamp = some t →
        ciGet (buildCondHeaders h0 ignore_cached js now) "If-Modified-Since" =
          some (formatdate t))) := by
  constructor
  · intro hic
    have hcond : (ignore_cached || decide (js.tries > 0)) = true := by
      rcases hic with h | h
      · rw [h, Bool.true_or]
      · simp [h]
    unfold buildCondHeaders
    rw [if_pos hcond]
    constructor
    · rw [ciGet_ciSet_ne _ _ _ _ (by decide), ciGet_ciSet_ne _ _ _ _ (by decide),
        ciGet_ciSet_ne _ _ _ _ (by decide), ciGet_ciPop_eq]
    · rw [ciGet_ciSet_ne _ _ _ _ (by decide), ciGet_ciSet_ne _ _ _ _ (by decide),
        ciGet_ciSet_eq]
  · intro hic htries
    have hcond : ¬ ((ignore_cached || decide (js.tries > 0)) = true) := by
      rw [hic, htries]
      decide
    unfold buildCondHeaders
    rw [if_neg hcond]
    constructor
    · intro hetag
      have hset : (!(js.old_etag == "")) = true := by
        simp [hetag]
      rw [if_pos hset]
      cases hts : js.old_timestamp with
      | none => exact ciGet_ciSet_eq h0 _ _
      | some t =>
          rw [ciGet_ciSet_ne _ _ _ _ (by decide), ciGet_ciSet_eq]
    · intro t hts
      rw [hts]
      exact ciGet_ciSet_eq _ _ _

/-- Witness for `C8_conditional_fetch_headers`: both branches at concrete
inputs — an ignore-cache request drops `If-None-Match` and gets the epoch
`If-Modified-Since`; a plain request sends the cached timestamp. -/
theorem C8_conditional_fetch_headers_witness :
    ciGet (buildCondHeaders [] true ⟨"E1", some 99, 0⟩ 7) "If-None-Match" = none ∧
    ciGet (buildCondHeaders [] true ⟨"E1", some 99, 0⟩ 7) "If-Modified-Since" =
      some (formatdate 0) ∧
    ciGet (buildCondHeaders [] false ⟨"E1", some 99, 0⟩ 7) "If-None-Match" =
      some "E1" ∧
    ciGet (buildCondHeaders [] false ⟨"E1", some 99, 0⟩ 7) "If-Modified-Since" =
      some (formatdate 99) :=
  ⟨((C8_conditional_fetch_headers [] true ⟨"E1", some 99, 0⟩ 7).1 (Or.inl rfl)).1,
    ((C8_conditional_fetch_headers [] true ⟨"E1", some 99, 0⟩ 7).1 (Or.inl rfl)).2,
    ((C8_conditional_fetch_headers [] false ⟨"E1", some 99, 0⟩ 7).2 rfl rfl).1
      (by decide),
    ((C8_conditional_fetch_headers [] false ⟨"E1", some 99, 0⟩ 7).2 rfl rfl).2 99 rfl⟩

/-- C9: the effective request timeout of `UrlJob.retrieve` is the 60-second
default when the `timeout` directive is unset, no timeout at all when it is
exactly 0, and the directive's value for any positive value. -/
theorem C9_timeout_resolution (timeout : Option ℚ) :
    (timeout = Option.none → resolveTimeout timeout = some 60) ∧
    (timeout = some 0 → resolveTimeout timeout = Option.none) ∧
    (∀ t : ℚ, 0 < t → timeout = some t → resolveTimeout timeout = some t) := by
  refine ⟨fun h => by rw [h]; rfl, fun h => by rw [h]; rfl, fun t ht h => ?_⟩
  rw [h]
  show (if t = 0 then Option.none else some t) = some t
  rw [if_neg ht.ne']

/-- Witness for `C9_timeout_resolution` at the timeout value 15. -/
theorem C9_timeout_resolution_witness :
    (0 : ℚ) < 15 ∧ resolveTimeout (some 15) = some 15 :=
  ⟨by norm_num, (C9_timeout_resolution (some 15)).2.2 15 (by norm_num) rfl⟩

/-- C10: for every successful pass through the response-handling tail of
`UrlJob.retrieve`, the etag returned alongside the content is the response's
`ETag` header exactly when the redirect history is empty, and the empty
string whenever the response was reached through one or more redirects. -/
theorem C10_etag_empty_after_redirects (name : Option String) (needsBytes : Bool)
    (r : HttpResponse) (content etag : String) (name' : Option String)
    (h : urlRetrieveTail name needsBytes r = .ok (content, etag, name')) :
    (r.history = [] → etag = (ciGet r.headers "ETag").getD "") ∧
    (r.history ≠ [] → etag = "") := by
  unfold urlRetrieveTail at h
  split at h
  · simp at h
  · split at h
    · simp at h
    · have he : etag = responseEtag r := by
        split at h <;> · cases h; rfl
      constructor
      · intro hh
        rw [he]
        unfold responseEtag
        rw [hh]
        rfl
      · intro hh
        rw [he]
        unfold responseEtag
        rw [if_neg (by simpa [List.isEmpty_iff] using hh)]

/-- Witness for `C10_etag_empty_after_redirects`: a 200 response reached via
one redirect, carrying an `ETag` header, yields the empty etag. -/
theorem C10_etag_empty_after_redirects_witness :
    urlRetrieveTail Option.none false ⟨200, [301], [("ETag", "E1")], "body"⟩ =
      .ok ("body", "", Option.none) ∧
    ([301] ≠ ([] : List Nat)) ∧
    "" = "" :=
  ⟨rfl, by decide,
    (C10_etag_empty_after_redirects Option.none false
      ⟨200, [301], [("ETag", "E1")], "body"⟩ "body" "" Option.none rfl).2
      (by decide)⟩

/-- A truthy directive is present. -/
theorem truthy_hasKey (d : Decl) (k : String) (h : (dget d k).truthy = true) :
    hasKey d k = true := by
  unfold dget at h
  cases hf : d.find? (fun kv => kv.fst == k) with
  | none =>
      rw [hf] at h
      exact absurd h (by decide)
  | some kv =>
      have hp := List.find?_some hf
      exact List.any_eq_true.mpr ⟨kv, List.mem_of_find?_eq_some hf, hp⟩

/-- Popping a different key does not change presence. -/
theorem hasKey_dpop_ne (d : Decl) (k k' : String) (hne : k ≠ k') :
    hasKey (dpop d k') k = hasKey d k := by
  unfold hasKey dpop
  induction d with
  | nil => rfl
  | cons x t ih =>
      by_cases hq : (x.fst == k') = true
      · rw [List.filter_cons_of_neg (by simp [hq]), List.any_cons]
        have hxk : (x.fst == k) = false := by
          rw [beq_iff_eq.mp hq]
          exact beq_eq_false_iff_ne.mpr (Ne.symm hne)
        rw [hxk, Bool.false_or, ih]
      · rw [List.filter_cons_of_pos (by simp [hq]), List.any_cons, List.any_cons, ih]

/-- The leftover-directive sweep over one variant's required tuple never pops
a key required by the selected variant. -/
theorem hasKey_stripKeysFold (vreq ks : List String) (k : String)
    (hk : vreq.contains k = true) :
    ∀ dd : Decl, hasKey (stripKeysFold vreq dd ks) k = hasKey dd k := by
  induction ks with
  | nil => intro dd; rfl
  | cons k' ks ih =>
      intro dd
      show hasKey (stripKeysFold vreq (if vreq.contains k' then dd else dpop dd k') ks) k = _
      rw [ih]
      by_cases hc : vreq.contains k' = true
      · rw [if_pos hc]
      · rw [if_neg hc]
        exact hasKey_dpop_ne dd k k' (fun he => hc (he ▸ hk))

/-- Auxiliary form of `hasKey_stripOther` over an arbitrary list of other
variants. -/
theorem hasKey_stripOther_aux (vreq : List String) (k : String)
    (hk : vreq.contains k = true) :
    ∀ (os : List Variant) (dd : Decl),
      hasKey (os.foldl (fun dd other => stripKeysFold vreq dd other.required) dd) k =
        hasKey dd k := by
  intro os
  induction os with
  | nil => intro dd; rfl
  | cons o os ih =>
      intro dd
      show hasKey (os.foldl _ (stripKeysFold vreq dd o.required)) k = _
      rw [ih, hasKey_stripKeysFold vreq o.required k hk]

/-- Stripping other variants' leftover required directives keeps every key
required by the selected variant. -/
theorem hasKey_stripOther (d : Decl) (v : Variant) (k : String)
    (hk : v.required.contains k = true) :
    hasKey (stripOther d v) k = hasKey d k :=
  hasKey_stripOther_aux v.required k hk _ d

/-- C4 (amended): for every job declaration that, after the deprecated
`navigate`/`kind` rewrites, has all required directives of exactly one
registered variant present with truthy values, `unserialize` resolves to
exactly that variant; and it returns an instance of that variant provided
every key remaining after the leftover-directive sweep is recognized
(required or optional) for it. -/
theorem C4_unique_required_match (d : Decl) (v : Variant)
    (hc : candidatesOf (rewriteDecl d) = [v]) :
    unserializeSelect d = .ok v ∧
    ((∀ kv ∈ stripOther (rewriteDecl d) v, recognizedKey v kv.fst = true) →
      unserialize d = .ok ⟨v.kind, stripOther (rewriteDecl d) v⟩) := by
  have hsel : unserializeSelect d = .ok v := by
    unfold unserializeSelect selectCore
    rw [hc]
  refine ⟨hsel, fun hrec => ?_⟩
  have hv : v ∈ candidatesOf (rewriteDecl d) := by
    rw [hc]
    exact List.mem_singleton.mpr rfl
  have hreq : ∀ k ∈ v.required, (dget (rewriteDecl d) k).truthy = true :=
    List.all_eq_true.mp (List.mem_filter.mp hv).2
  unfold unserialize
  rw [hsel]
  show from_dict v (stripOther (rewriteDecl d) v) = _
  unfold from_dict
  have h1 : (stripOther (rewriteDecl d) v).find?
      (fun kv => !(recognizedKey v kv.fst)) = none := by
    apply List.find?_eq_none.mpr
    intro kv hkv
    rw [hrec kv hkv]
    decide
  rw [h1]
  have h2 : v.required.find?
      (fun k => !(hasKey (stripOther (rewriteDecl d) v) k)) = none := by
    apply List.find?_eq_none.mpr
    intro k hkmem
    rw [hasKey_stripOther _ _ _ (List.elem_iff.mpr hkmem),
      truthy_hasKey _ _ (hreq k hkmem)]
    decide
  rw [h2]

/-- Witness for `C4_unique_required_match`: a plain url declaration with a
`name` directive resolves to the url variant and constructs it. -/
theorem C4_unique_required_match_witness :
    candidatesOf (rewriteDecl [("url", DVal.vstr "https://example.com/"),
      ("name", DVal.vstr "Example")]) = [urlVariant] ∧
    unserialize [("url", DVal.vstr "https://example.com/"),
      ("name", DVal.vstr "Example")] =
      .ok ⟨Kind.url, [("url", DVal.vstr "https://example.com/"),
        ("name", DVal.vstr "Example")]⟩ :=
  ⟨rfl,
    (C4_unique_required_match
      [("url", DVal.vstr "https://example.com/"), ("name", DVal.vstr "Example")]
      urlVariant rfl).2 (by decide)⟩

/-- C4 (counterexample): the declaration `{url: 'x', navigate: 'y'}` has all
required directives of exactly one registered variant (url) present with
truthy values, yet `unserialize` returns a browser job: the deprecated
`navigate` rewrite first adds `use_browser: true`, after which the browser
variant out-counts the url variant. -/
theorem C4_navigate_rewrite_counterexample :
    candidatesOf [("url", DVal.vstr "x"), ("navigate", DVal.vstr "y")] = [urlVariant] ∧
    unserialize [("url", DVal.vstr "x"), ("navigate", DVal.vstr "y")] =
      .ok ⟨Kind.browser, [("url", DVal.vstr "x"), ("navigate", DVal.vstr "y"),
        ("use_browser", DVal.vbool true)]⟩ ∧
    Kind.browser ≠ Kind.url :=
  ⟨rfl, rfl, by decide⟩

/-- C6: for every declaration that resolves to a variant, if after the
leftover-directive sweep the declaration still contains a key that is neither
required nor optional for the selected variant, construction fails with a
validation error naming an offending key — the key is never silently dropped
or coerced. -/
theorem C6_unrecognized_directive_fatal (d : Decl) (v : Variant)
    (kv : String × DVal)
    (hs : unserializeSelect d = .ok v)
    (hmem : kv ∈ stripOther (rewriteDecl d) v)
    (hbad : recognizedKey v kv.fst = false) :
    ∃ k', unserialize d = .error (.unrecognizedDirective k') ∧
      recognizedKey v k' = false := by
  have hu : unserialize d = from_dict v (stripOther (rewriteDecl d) v) := by
    unfold unserialize
    rw [hs]
  rw [hu]
  unfold from_dict
  cases hf : (stripOther (rewriteDecl d) v).find?
      (fun kv => !(recognizedKey v kv.fst)) with
  | none =>
      exfalso
      have hkv := List.find?_eq_none.mp hf kv hmem
      rw [hbad] at hkv
      exact hkv rfl
  | some kv' =>
      refine ⟨kv'.fst, rfl, ?_⟩
      have := List.find?_some hf
      simpa using this

/-- Witness for `C6_unrecognized_directive_fatal`: a url declaration with a
typo'd directive `bogus` fails with an unrecognized-directive error. -/
theorem C6_unrecognized_directive_fatal_witness :
    ∃ k', unserialize [("url", DVal.vstr "x"), ("bogus", DVal.vstr "y")] =
      .error (.unrecognizedDirective k') ∧ recognizedKey urlVariant k' = false :=
  C6_unrecognized_directive_fatal
    [("url", DVal.vstr "x"), ("bogus", DVal.vstr "y")] urlVariant
    ("bogus", DVal.vstr "y") rfl (by decide) (by decide)

/-- The stable descending insertion never produces the empty list. -/
theorem insertDesc_ne_nil (x : Variant × Nat) (l : List (Variant × Nat)) :
    insertDesc x l ≠ [] := by
  cases l with
  | nil => simp [insertDesc]
  | cons y ys =>
      unfold insertDesc
      split <;> simp

/-- The head after a stable descending insertion. -/
theorem headD_insertDesc (x w : Variant × Nat) (l : List (Variant × Nat)) :
    (insertDesc x l).headD w =
      match l with
      | [] => x
      | y :: _ => if y.snd > x.snd then y else x := by
  cases l with
  | nil => rfl
  | cons y ys =>
      unfold insertDesc
      by_cases hgt : y.snd > x.snd
      · rw [if_pos hgt]
        show y = if y.snd > x.snd then y else x
        rw [if_pos hgt]
      · rw [if_neg hgt]
        show x = if y.snd > x.snd then y else x
        rw [if_neg hgt]

/-- The head of the stable descending sort is the first pair attaining the
maximal count. -/
theorem headD_sortDesc (l : List (Variant × Nat)) (x w : Variant × Nat) :
    (sortDesc (x :: l)).headD w = firstMaxP x l := by
  induction l generalizing x with
  | nil => rfl
  | cons y ys ih =>
      show (insertDesc x (sortDesc (y :: ys))).headD w = _
      cases hs : sortDesc (y :: ys) with
      | nil => exact absurd hs (insertDesc_ne_nil y (sortDesc ys))
      | cons z zs =>
          rw [headD_insertDesc]
          have hz : z = firstMaxP y ys := by
            have h := ih y
            rw [hs] at h
            exact h
          show (if z.snd > x.snd then z else x) = _
          rw [hz]
          rfl

/-- `firstMaxP` over count-tagged pairs computes the spec selection together
with its count. -/
theorem firstMaxP_map (f : Variant → Nat) :
    ∀ (cs : List Variant) (c : Variant),
      firstMaxP (c, f c) (cs.map (fun m => (m, f m))) =
        (specBestCore f c cs, f (specBestCore f c cs)) := by
  intro cs
  induction cs with
  | nil => intro c; rfl
  | cons c2 cs ih =>
      intro c
      simp only [List.map_cons, firstMaxP, ih c2, specBestCore]
      by_cases hgt : f (specBestCore f c2 cs) > f c
      · simp [hgt]
      · simp [hgt]

/-- The spec selection picks one of the candidates. -/
theorem specBestCore_mem (f : Variant → Nat) :
    ∀ (cs : List Variant) (c : Variant),
      specBestCore f c cs = c ∨ specBestCore f c cs ∈ cs := by
  intro cs
  induction cs with
  | nil => intro c; exact Or.inl rfl
  | cons c2 cs ih =>
      intro c
      simp only [specBestCore]
      by_cases hgt : f (specBestCore f c2 cs) > f c
      · rw [if_pos hgt]
        rcases ih c2 with h | h
        · exact Or.inr (by rw [h]; exact List.mem_cons_self c2 cs)
        · exact Or.inr (List.mem_cons_of_mem c2 h)
      · rw [if_neg hgt]
        exact Or.inl rfl

/-- The spec selection only depends on the counts of the candidates. -/
theorem specBestCore_congr (f g : Variant → Nat) :
    ∀ (cs : List Variant) (c : Variant), f c = g c → (∀ m ∈ cs, f m = g m) →
      specBestCore f c cs = specBestCore g c cs := by
  intro cs
  induction cs with
  | nil => intro c _ _; rfl
  | cons c2 cs ih =>
      intro c hc hcs
      have hm : specBestCore f c2 cs = specBestCore g c2 cs :=
        ih c2 (hcs c2 (List.mem_cons_self c2 cs))
          (fun m hmm => hcs m (List.mem_cons_of_mem c2 hmm))
      have hfm : f (specBestCore f c2 cs) = g (specBestCore g c2 cs) := by
        rw [hm]
        rcases specBestCore_mem g cs c2 with h | h
        · rw [h]
          exact hcs c2 (List.mem_cons_self c2 cs)
        · exact hcs _ (List.mem_cons_of_mem c2 h)
      simp only [specBestCore]
      rw [hfm, hm, hc]

/-- On a candidate (all required directives truthy) both the code's
`is not None` count and the spec's truthy count equal the size of the
required tuple. -/
theorem candidate_counts (d : Decl) (v : Variant) (hv : v ∈ candidatesOf d) :
    countNotNone d v = v.required.length ∧
    countTruthyReq d v = v.required.length := by
  have hall := List.all_eq_true.mp (List.mem_filter.mp hv).2
  constructor
  · have hfil : v.required.filter (fun k => !(dget d k == DVal.vnone)) = v.required := by
      apply List.filter_eq_self.mpr
      intro k hk
      have ht := hall k hk
      cases hd : dget d k <;> rw [hd] at ht <;> simp_all [DVal.truthy]
    unfold countNotNone
    rw [hfil]
  · have hfil : v.required.filter (fun k => (dget d k).truthy) = v.required :=
      List.filter_eq_self.mpr hall
    unfold countTruthyReq
    rw [hfil]

/-- A permutation preserves key presence. -/
theorem hasKey_perm {d₁ d₂ : Decl} (h : d₁.Perm d₂) (k : String) :
    hasKey d₁ k = hasKey d₂ k := by
  unfold hasKey
  by_cases hb : d₁.any (fun kv => kv.fst == k) = true
  · obtain ⟨x, hm, hp⟩ := List.any_eq_true.mp hb
    rw [hb, Eq.comm]
    exact List.any_eq_true.mpr ⟨x, h.mem_iff.mp hm, hp⟩
  · rw [Bool.not_eq_true] at hb
    rw [hb, Eq.comm]
    rw [List.any_eq_false] at hb ⊢
    exact fun x hx => hb x (h.mem_iff.mpr hx)

/-- Lookup at the head of a declaration when the key matches. -/
theorem dget_cons_pos {x : String × DVal} {t : Decl} {k : String}
    (hx : (x.fst == k) = true) : dget (x :: t) k = x.snd := by
  unfold dget
  rw [List.find?_cons, hx]
  rfl

/-- Lookup skips a head entry whose key differs. -/
theorem dget_cons_neg {x : String × DVal} {t : Decl} {k : String}
    (hx : (x.fst == k) = false) : dget (x :: t) k = dget t k := by
  unfold dget
  rw [List.find?_cons, hx]

/-- A permutation of a declaration with distinct keys preserves every
lookup. -/
theorem dget_perm {d₁ d₂ : Decl} (h : d₁.Perm d₂) :
    (d₁.map Prod.fst).Nodup → ∀ k, dget d₁ k = dget d₂ k := by
  induction h with
  | nil => intro _ k; rfl
  | cons x h ih =>
      intro hn k
      rw [List.map_cons, List.nodup_cons] at hn
      by_cases hx : (x.fst == k) = true
      · rw [dget_cons_pos hx, dget_cons_pos hx]
      · rw [Bool.not_eq_true] at hx
        rw [dget_cons_neg hx, dget_cons_neg hx]
        exact ih hn.2 k
  | swap x y l =>
      intro hn k
      rw [List.map_cons, List.map_cons, List.nodup_cons] at hn
      have hyx : y.fst ≠ x.fst := fun he => hn.1 (by rw [he]; exact List.mem_cons_self _ _)
      by_cases hy : (y.fst == k) = true <;> by_cases hx : (x.fst == k) = true
      · exact absurd ((beq_iff_eq.mp hy).trans (beq_iff_eq.mp hx).symm) hyx
      · rw [Bool.not_eq_true] at hx
        rw [dget_cons_pos hy, dget_cons_neg hx, dget_cons_pos hy]
      · rw [Bool.not_eq_true] at hy
        rw [dget_cons_neg hy, dget_cons_pos hx, dget_cons_pos hx]
      · rw [Bool.not_eq_true] at hy hx
        rw [dget_cons_neg hy, dget_cons_neg hx, dget_cons_neg hx, dget_cons_neg hy]
  | trans h₁ h₂ ih₁ ih₂ =>
      intro hn k
      rw [ih₁ hn k, ih₂ ((h₁.map Prod.fst).nodup hn) k]

/-- A permutation of declarations is preserved by a keyed removal. -/
theorem dpop_perm {d₁ d₂ : Decl} (h : d₁.Perm d₂) (k : String) :
    (dpop d₁ k).Perm (dpop d₂ k) :=
  List.Perm.filter _ h

/-- A permutation of declarations is preserved by a keyed store. -/
theorem dset_perm {d₁ d₂ : Decl} (h : d₁.Perm d₂) (k : String) (v : DVal) :
    (dset d₁ k v).Perm (dset d₂ k v) := by
  unfold dset
  rw [hasKey_perm h k]
  by_cases hk : hasKey d₂ k = true
  · rw [if_pos hk, if_pos hk]
    exact h.map _
  · rw [if_neg hk, if_neg hk]
    exact h.append_right _

/-- Presence is membership among the keys. -/
theorem hasKey_iff_mem_keys (d : Decl) (k : String) :
    hasKey d k = true ↔ k ∈ d.map Prod.fst := by
  unfold hasKey
  rw [List.any_eq_true]
  constructor
  · rintro ⟨x, hx, hp⟩
    exact List.mem_map.mpr ⟨x, hx, beq_iff_eq.mp hp⟩
  · intro hm
    obtain ⟨x, hx, he⟩ := List.mem_map.mp hm
    exact ⟨x, hx, beq_iff_eq.mpr he⟩

/-- The keys after a keyed store. -/
theorem keys_dset (d : Decl) (k : String) (v : DVal) :
    (dset d k v).map Prod.fst =
      if hasKey d k then d.map Prod.fst else d.map Prod.fst ++ [k] := by
  unfold dset
  by_cases hk : hasKey d k = true
  · rw [if_pos hk, if_pos hk, List.map_map]
    apply List.map_congr_left
    intro kv _
    show ((if kv.fst == k then (k, v) else kv)).fst = kv.fst
    by_cases hkv : (kv.fst == k) = true
    · rw [if_pos hkv]
      exact (beq_iff_eq.mp hkv).symm
    · rw [if_neg hkv]
  · rw [if_neg hk, if_neg hk, List.map_append]
    rfl

/-- A keyed store preserves distinctness of the keys. -/
theorem nodupkeys_dset (d : Decl) (k : String) (v : DVal)
    (hn : (d.map Prod.fst).Nodup) : ((dset d k v).map Prod.fst).Nodup := by
  rw [keys_dset]
  by_cases hk : hasKey d k = true
  · rw [if_pos hk]
    exact hn
  · rw [if_neg hk]
    rw [List.nodup_append]
    refine ⟨hn, List.nodup_singleton k, ?_⟩
    intro a ha hb
    rw [List.mem_singleton] at hb
    subst hb
    exact hk ((hasKey_iff_mem_keys d a).mpr ha)

/-- A keyed removal preserves distinctness of the keys. -/
theorem nodupkeys_dpop (d : Decl) (k : String)
    (hn : (d.map Prod.fst).Nodup) : ((dpop d k).map Prod.fst).Nodup :=
  List.Nodup.sublist (List.Sublist.map Prod.fst (List.filter_sublist d)) hn

/-- The `navigate` rewrite maps permuted declarations (with distinct keys) to
permuted declarations. -/
theorem navigateStep_perm {d₁ d₂ : Decl} (h : d₁.Perm d₂)
    (hn : (d₁.map Prod.fst).Nodup) : (navigateStep d₁).Perm (navigateStep d₂) := by
  unfold navigateStep
  rw [dget_perm h hn "navigate", dget_perm h hn "use_browser",
    hasKey_perm h "url", dget_perm h hn "url"]
  by_cases hc : ((dget d₂ "navigate").truthy && !(dget d₂ "use_browser").truthy) = true
  · rw [if_pos hc, if_pos hc]
    exact dset_perm (dset_perm h _ _) _ _
  · rw [if_neg hc, if_neg hc]
    exact h

/-- The `navigate` rewrite preserves distinctness of the keys. -/
theorem navigateStep_nodup (d : Decl) (hn : (d.map Prod.fst).Nodup) :
    ((navigateStep d).map Prod.fst).Nodup := by
  unfold navigateStep
  split
  · exact nodupkeys_dset _ _ _ (nodupkeys_dset _ _ _ hn)
  · exact hn

/-- The `kind` drop maps permuted declarations to permuted declarations. -/
theorem dropKindStep_perm {d₁ d₂ : Decl} (h : d₁.Perm d₂) :
    (dropKindStep d₁).Perm (dropKindStep d₂) := by
  unfold dropKindStep
  rw [hasKey_perm h "kind"]
  by_cases hk : hasKey d₂ "kind" = true
  · rw [if_pos hk, if_pos hk]
    exact dpop_perm h _
  · rw [if_neg hk, if_neg hk]
    exact h

/-- The `kind` drop preserves distinctness of the keys. -/
theorem dropKindStep_nodup (d : Decl) (hn : (d.map Prod.fst).Nodup) :
    ((dropKindStep d).map Prod.fst).Nodup := by
  unfold dropKindStep
  split
  · exact nodupkeys_dpop _ _ hn
  · exact hn

/-- The deprecation rewrites map permuted declarations (with distinct keys)
to permuted declarations. -/
theorem rewriteDecl_perm {d₁ d₂ : Decl} (h : d₁.Perm d₂)
    (hn : (d₁.map Prod.fst).Nodup) : (rewriteDecl d₁).Perm (rewriteDecl d₂) :=
  dropKindStep_perm (navigateStep_perm h hn)

/-- The deprecation rewrites preserve distinctness of the keys. -/
theorem rewriteDecl_nodup (d : Decl) (hn : (d.map Prod.fst).Nodup) :
    ((rewriteDecl d).map Prod.fst).Nodup :=
  dropKindStep_nodup _ (navigateStep_nodup _ hn)

/-- The auto-detection step only depends on a declaration through its keyed
lookups and its size. -/
theorem selectCore_ext (e₁ e₂ : Decl) (hg : ∀ k, dget e₁ k = dget e₂ k)
    (hl : e₁.length = e₂.length) : selectCore e₁ = selectCore e₂ := by
  have hcand : candidatesOf e₁ = candidatesOf e₂ := by
    unfold candidatesOf
    rw [show (fun v : Variant => v.required.all (fun k => (dget e₁ k).truthy)) =
      (fun v : Variant => v.required.all (fun k => (dget e₂ k).truthy)) from
      funext fun v => by rw [show (fun k => (dget e₁ k).truthy) =
        (fun k => (dget e₂ k).truthy) from funext fun k => by rw [hg k]]]
  have hcnt : countNotNone e₁ = countNotNone e₂ := by
    funext v
    unfold countNotNone
    rw [show (fun k => !(dget e₁ k == DVal.vnone)) =
      (fun k => !(dget e₂ k == DVal.vnone)) from funext fun k => by rw [hg k]]
  unfold selectCore
  rw [hcand, hcnt, hl]

/-- C5 (amended): for every declaration that, after the deprecated
`navigate`/`kind` rewrites, satisfies the required-directive sets of two or
more variants, `unserialize` selects the candidate with the highest count of
matching truthy required directives, ties broken by registration order (first
registered wins); and for declarations with distinct keys the selection is
unchanged under any permutation of the field order. -/
theorem C5_multi_candidate_selection (d : Decl) (v₁ v₂ : Variant)
    (rest : List Variant)
    (hc : candidatesOf (rewriteDecl d) = v₁ :: v₂ :: rest) :
    unserializeSelect d =
      .ok (specBestCore (countTruthyReq (rewriteDecl d)) v₁ (v₂ :: rest)) ∧
    (∀ d₂ : Decl, d.Perm d₂ → (d.map Prod.fst).Nodup →
      unserializeSelect d₂ = unserializeSelect d) := by
  constructor
  · unfold unserializeSelect selectCore
    rw [hc]
    show Except.ok (((sortDesc ((v₁ :: v₂ :: rest).map
      (fun m => (m, countNotNone (rewriteDecl d) m)))).headD (v₁, 0)).fst) = _
    rw [List.map_cons]
    show Except.ok (((sortDesc ((v₁, countNotNone (rewriteDecl d) v₁) ::
      (v₂ :: rest).map (fun m => (m, countNotNone (rewriteDecl d) m)))).headD
        (v₁, 0)).fst) = _
    rw [headD_sortDesc]
    rw [firstMaxP_map (countNotNone (rewriteDecl d)) (v₂ :: rest) v₁]
    show Except.ok (specBestCore (countNotNone (rewriteDecl d)) v₁ (v₂ :: rest)) = _
    have hmem : ∀ m ∈ v₁ :: v₂ :: rest, m ∈ candidatesOf (rewriteDecl d) := by
      intro m hm
      rw [hc]
      exact hm
    congr 1
    apply specBestCore_congr
    · obtain ⟨h1, h2⟩ := candidate_counts (rewriteDecl d) v₁
        (hmem v₁ (List.mem_cons_self v₁ _))
      rw [h1, h2]
    · intro m hm
      obtain ⟨h1, h2⟩ := candidate_counts (rewriteDecl d) m
        (hmem m (List.mem_cons_of_mem v₁ hm))
      rw [h1, h2]
  · intro d₂ hperm hnodup
    have hrp : (rewriteDecl d).Perm (rewriteDecl d₂) := rewriteDecl_perm hperm hnodup
    have hrn : ((rewriteDecl d).map Prod.fst).Nodup := rewriteDecl_nodup d hnodup
    unfold unserializeSelect
    exact selectCore_ext (rewriteDecl d₂) (rewriteDecl d)
      (fun k => (dget_perm hrp hrn k).symm) hrp.length_eq.symm

/-- Witness for `C5_multi_candidate_selection`: `{url, use_browser}` matches
both the url and the browser variant; the browser variant's count (2) wins,
and swapping the two directives leaves the selection unchanged. -/
theorem C5_multi_candidate_selection_witness :
    candidatesOf (rewriteDecl [("url", DVal.vstr "x"),
      ("use_browser", DVal.vbool true)]) = [urlVariant, browserVariant] ∧
    unserializeSelect [("url", DVal.vstr "x"), ("use_browser", DVal.vbool true)] =
      .ok (specBestCore (countTruthyReq (rewriteDecl [("url", DVal.vstr "x"),
        ("use_browser", DVal.vbool true)])) urlVariant [browserVariant]) ∧
    unserializeSelect [("use_browser", DVal.vbool true), ("url", DVal.vstr "x")] =
      unserializeSelect [("url", DVal.vstr "x"), ("use_browser", DVal.vbool true)] :=
  ⟨rfl,
    (C5_multi_candidate_selection [("url", DVal.vstr "x"),
      ("use_browser", DVal.vbool true)] urlVariant browserVariant [] rfl).1,
    (C5_multi_candidate_selection [("url", DVal.vstr "x"),
      ("use_browser", DVal.vbool true)] urlVariant browserVariant [] rfl).2
      [("use_browser", DVal.vbool true), ("url", DVal.vstr "x")]
      (by decide) (by decide)⟩

/-- C5 (counterexample): the declaration `{url: 'x', command: 'c',
navigate: 'n'}` satisfies the required-directive sets of two variants (url
and shell); among those candidates the highest-count/first-registered rule
picks the url variant, yet `unserialize` selects the browser variant, because
the deprecated `navigate` rewrite first adds `use_browser: true`. -/
theorem C5_navigate_rewrite_counterexample :
    candidatesOf [("url", DVal.vstr "x"), ("command", DVal.vstr "c"),
      ("navigate", DVal.vstr "n")] = [urlVariant, shellVariant] ∧
    specBestCore (countTruthyReq [("url", DVal.vstr "x"),
      ("command", DVal.vstr "c"), ("navigate", DVal.vstr "n")])
      urlVariant [shellVariant] = urlVariant ∧
    unserializeSelect [("url", DVal.vstr "x"), ("command", DVal.vstr "c"),
      ("navigate", DVal.vstr "n")] = .ok browserVariant ∧
    browserVariant ≠ urlVariant :=
  ⟨rfl, rfl, rfl, by decide⟩

end Webchanges
